import Mathlib

/-!
Verification of the NaK Spore Mod Loader installer
(`spore-mod-loader/installer.py`).

The installer is a single Python class orchestrating a Wine-prefix install
pipeline.  Pure string computations (path translation, registry document
synthesis) are embedded directly; the effectful steps (temporary-file
handling, process launches, the install pipeline) are embedded as explicit
state-passing functions over a record of observable state, with the
external collaborators (game finder, Proton manager, dependency installer,
downloader, process spawner) supplied as oracle parameters.
-/

set_option maxRecDepth 100000

namespace SporeModLoader

/-! ### String infrastructure

Python `str.replace(old, new)` with a single-character pattern maps each
occurrence of that character to the replacement string; `expand` is that
character-wise expansion on the underlying character list. -/

/-- Character-wise expansion of a list: each character is replaced by the
list of characters `f` assigns to it. -/
def expand (f : Char → List Char) : List Char → List Char
  | [] => []
  | c :: rest => f c ++ expand f rest

/-- Model of Python `s.replace(c, r)` for a single-character pattern `c`:
every occurrence of the character `c` in `s` is replaced by the string
`r`. -/
def pyReplaceChar (s : String) (c : Char) (r : String) : String :=
  ⟨expand (fun x => if x = c then r.data else [x]) s.data⟩

/-- `tokenAt tok l` tests whether the character list `tok` occurs at the
very start of `l`. -/
def tokenAt : List Char → List Char → Bool
  | [], _ => true
  | _ :: _, [] => false
  | t :: ts, c :: cs => t == c && tokenAt ts cs

/-- Number of positions of `l` at which the token `tok` occurs (counting
possibly-overlapping occurrences at every suffix). -/
def countOcc (tok : List Char) : List Char → Nat
  | [] => if tokenAt tok [] then 1 else 0
  | c :: rest => (if tokenAt tok (c :: rest) then 1 else 0) + countOcc tok rest

/-- Number of occurrences of the token string `tok` inside `s`. -/
def countSubstr (s tok : String) : Nat :=
  countOcc tok.data s.data

/-- Boolean substring test, used to model Python `tok in s`. -/
def containsTok (s tok : String) : Bool :=
  countOcc tok.data s.data != 0

/-- Model of Python `str.lower()` (ASCII case folding, which is all the
installer relies on: it compares against the ASCII literal `"spore"`). -/
def toLowerStr (s : String) : String :=
  ⟨s.data.map Char.toLower⟩

/-! ### Path Translator (installer.py lines 72-84) -/

/-- `convert_to_wine_path_display` (installer.py:72-77): Wine `Z:` drive
path for display, `"Z:\" + linux_path.replace("/", "\")` (single
backslashes). -/
def convert_to_wine_path_display (linux_path : String) : String :=
  "Z:\\" ++ pyReplaceChar linux_path '/' "\\"

/-- `convert_to_wine_path_registry` (installer.py:79-84): Wine `Z:` drive
path for `.reg` files, `"Z:\\" + linux_path.replace("/", "\\")` (doubled
backslashes). -/
def convert_to_wine_path_registry (linux_path : String) : String :=
  "Z:\\\\" ++ pyReplaceChar linux_path '/' "\\\\"

/-! ### Registry Document Synthesizer (installer.py lines 92-119)

The registry document is an f-string template with three interpolated
wine paths.  The four fixed template segments between/around the
interpolations are transcribed verbatim below (in the Python source every
`\\` denotes one backslash character, exactly as in these Lean literals). -/

/-- Template text from the start of the document up to the first
interpolation (`{wine_data_path}`). -/
def regSegA : String :=
  "Windows Registry Editor Version 5.00\n\n[HKEY_LOCAL_MACHINE\\Software\\Wow6432Node\\electronic arts\\spore]\n\"appdir\"=\"Spore\"\n\"datadir\"=\""

/-- Template text between `{wine_data_path}` and `{wine_bp1_path}`. -/
def regSegB : String :=
  "\"\n\"locale\"=\"en-us\"\n\"playerdir\"=\"My Spore Creations\"\n\n[HKEY_LOCAL_MACHINE\\Software\\Wow6432Node\\electronic arts\\ea games\\spore(tm)\\ergc]\n@=\"%CDKEY%\"\n\n[HKEY_LOCAL_MACHINE\\Software\\Wow6432Node\\electronic arts\\SPORE Creepy and Cute Parts Pack]\n\"AddOnID\"=dword:00000001\n\"datadir\"=\""

/-- Template text between `{wine_bp1_path}` and `{wine_dataep1_path}`. -/
def regSegC : String :=
  "\\\\\"\n\"PackID\"=dword:06f4b5d1\n\n[HKEY_LOCAL_MACHINE\\Software\\Wow6432Node\\electronic arts\\SPORE_EP1]\n\"AddOnID\"=dword:00000002\n\"datadir\"=\""

/-- Template text after `{wine_dataep1_path}` to the end of the document. -/
def regSegD : String :=
  "\\\\\"\n\"PackID\"=dword:07a7f786\n\"ProductKey\"=\"%CDKEY%\"\n"

/-- The `reg_content` string built by `create_spore_registry`
(installer.py:92-119): the registry-escaped spore path and its three
derived subpaths substituted into the fixed template. -/
def reg_content (spore_path : String) : String :=
  let wine_spore_path := convert_to_wine_path_registry spore_path
  let wine_data_path := wine_spore_path ++ "\\\\Data"
  let wine_dataep1_path := wine_spore_path ++ "\\\\DataEP1"
  let wine_bp1_path := wine_spore_path ++ "\\\\bp1content"
  regSegA ++ wine_data_path ++ regSegB ++ wine_bp1_path ++ regSegC ++
    wine_dataep1_path ++ regSegD

/-! ### Proof-side views of the path conversions -/

/-- The character-expansion map of the registry-mode path conversion:
each `/` becomes two backslashes. -/
def regRepl (c : Char) : List Char := if c = '/' then ['\\', '\\'] else [c]

/-- The character-expansion map of the display-mode path conversion:
each `/` becomes one backslash. -/
def dispRepl (c : Char) : List Char := if c = '/' then ['\\'] else [c]

/-- The tail (all characters after the leading `Z`) of an interpolated
wine path `convert_to_wine_path_registry p ++ suf`. -/
def regTail (p : String) (suf : String) : List Char :=
  ':' :: '\\' :: '\\' :: (expand regRepl p.data ++ suf.data)

/-- Alternating segment/interpolation assembly of a document:
`glue s [(w1, s1), (w2, s2)] = s ++ w1 ++ s1 ++ w2 ++ s2`
(right-associated). -/
def glue : List Char → List (List Char × List Char) → List Char
  | s, [] => s
  | s, (w, s') :: rest => s ++ (w ++ glue s' rest)

/-! ### Backslash-run analysis (for the Path Translator claims) -/

/-- `runsAux l n` returns the lengths of the maximal runs of backslashes
in `l`, where `n` is the length of the backslash run immediately
preceding `l`. -/
def runsAux : List Char → Nat → List Nat
  | [], n => if n = 0 then [] else [n]
  | c :: r, n =>
    if c = '\\' then runsAux r (n + 1)
    else if n = 0 then runsAux r 0 else n :: runsAux r 0

/-- Lengths of the maximal runs of backslashes in `l`, in order. -/
def bsRuns (l : List Char) : List Nat := runsAux l 0

/-- No two adjacent forward slashes (part of "well-formed absolute host
path"). -/
def noAdjSlash : List Char → Bool
  | c :: d :: r => !(c == '/' && d == '/') && noAdjSlash (d :: r)
  | _ => true

/-! ### Game locate step (installer.py lines 48-70) -/

/-- A game record as produced by the Game Locator collaborator
(`GameFinder.find_all_games`). -/
structure GameRecord where
  name : String
  path : String
  platform : String
deriving DecidableEq

/-- The `for game in all_games` loop of `find_spore_game`
(installer.py:56-63): returns the first record whose lowercased name
contains `"spore"`. -/
def findSporeLoop : List GameRecord → Option GameRecord
  | [] => none
  | g :: rest =>
    if containsTok (toLowerStr g.name) "spore" then some g else findSporeLoop rest

/-- `find_spore_game` (installer.py:48-70).  The Game Locator collaborator
is an oracle: `.ok games` models `find_all_games()` returning `games`,
`.error ()` models it raising (the surrounding `try` converts any
exception into a `None` result). -/
def find_spore_game (gamesResult : Except Unit (List GameRecord)) : Option GameRecord :=
  match gamesResult with
  | .error _ => none
  | .ok all_games => findSporeLoop all_games

/-! ### Sandbox Locator (installer.py lines 268-300) -/

/-- `find_modapi_installation` (installer.py:268-300): probes three fixed
candidate directories under the prefix, in source order, for the marker
executable `Spore ModAPI Launcher.exe`.  `exists_` is the filesystem
oracle (`Path.exists`). -/
def find_modapi_installation (exists_ : String → Bool) (prefixPath : String) :
    Option String :=
  let default_path := prefixPath ++ "/drive_c/ProgramData/SPORE ModAPI Launcher Kit"
  if exists_ (default_path ++ "/Spore ModAPI Launcher.exe") then some default_path
  else
    let alt_path1 := prefixPath ++ "/drive_c/Program Files (x86)/Spore ModAPI Launcher Kit"
    if exists_ (alt_path1 ++ "/Spore ModAPI Launcher.exe") then some alt_path1
    else
      let alt_path2 := prefixPath ++ "/drive_c/Program Files/Spore ModAPI Launcher Kit"
      if exists_ (alt_path2 ++ "/Spore ModAPI Launcher.exe") then some alt_path2
      else none

/-- The three candidate install roots probed by `find_modapi_installation`,
in the order the source probes them: shared program data, then
`Program Files (x86)`, then `Program Files`. -/
def modapiCandidates (prefixPath : String) : List String :=
  [prefixPath ++ "/drive_c/ProgramData/SPORE ModAPI Launcher Kit",
   prefixPath ++ "/drive_c/Program Files (x86)/Spore ModAPI Launcher Kit",
   prefixPath ++ "/drive_c/Program Files/Spore ModAPI Launcher Kit"]

/-! ### Guest-process environment (installer.py lines 136-139 and 241-244)

Both process-spawning sites (`create_spore_registry` before running
`wine64 regedit`, and `launch_installer_with_instructions` before
`Popen`) build the environment identically: `env = os.environ.copy()`,
then `env["WINEPREFIX"] = str(prefix_path)`, then
`env["LD_LIBRARY_PATH"] = <fixed list>`.  A Python dict is modelled as an
association list; dict assignment replaces the value of an existing key
in place, else appends the binding. -/

/-- First-match association lookup (Python `d[k]` / `d.get(k)`). -/
def lookupD (d : List (String × String)) (k : String) : Option String :=
  match d with
  | [] => none
  | (k', v) :: rest => if k' = k then some v else lookupD rest k

/-- Python dict assignment `d[k] = v` on an association list. -/
def dictSet (d : List (String × String)) (k v : String) : List (String × String) :=
  match d with
  | [] => [(k, v)]
  | (k', v') :: rest => if k' = k then (k', v) :: rest else (k', v') :: dictSet rest k v

/-- The fixed `LD_LIBRARY_PATH` value assigned at both spawn sites
(installer.py:139 and installer.py:244). -/
def libraryPathOverride : String :=
  "/usr/lib:/usr/lib/x86_64-linux-gnu:/lib:/lib/x86_64-linux-gnu"

/-- The environment handed to every spawned guest process, as built at
installer.py:136-139 and installer.py:241-244 from the host environment
`hostEnv`. -/
def buildGuestEnv (hostEnv : List (String × String)) (prefixPath : String) :
    List (String × String) :=
  dictSet (dictSet hostEnv "WINEPREFIX" prefixPath) "LD_LIBRARY_PATH" libraryPathOverride

/-! ### Install pipeline state machine (installer.py lines 440-577)

Observable state touched by the pipeline, plus invocation counters for
the collaborator calls whose occurrence the spec talks about. -/

/-- Outcome of the bounded `wine64 regedit` invocation
(installer.py:141-147): exit code 0, nonzero exit code, or the 60-second
`timeout=` ceiling being exceeded (in which case `subprocess.run` raises
`TimeoutExpired`). -/
inductive ImportOutcome
  | exit0
  | exitNonzero
  | timedOut
deriving DecidableEq

/-- Observable filesystem/collaborator state threaded through the
pipeline:
* `prefixExists` — the Wine prefix directory exists;
* `markerExists` — the `.dependencies_installed` sentinel file exists;
* `depCalls` — number of invocations of the dependency-install delegate
  (`_install_dependencies_unified`);
* `regTmp` — content of the temporary `.reg` file if it currently
  exists on disk;
* `regImportCalls` — number of `wine64 regedit` invocations;
* `downloadCalls` — number of invocations of the installer download step;
* `launchCalls` — number of successfully spawned guest installer
  processes. -/
structure PipeSt where
  prefixExists : Bool
  markerExists : Bool
  depCalls : Nat
  regTmp : Option String
  regImportCalls : Nat
  downloadCalls : Nat
  launchCalls : Nat
deriving DecidableEq

/-- Collaborator oracle: everything the environment decides during one
pipeline run. -/
structure PipeEnv where
  /-- Result of `GameFinder.find_all_games()` (`.error` models a raise). -/
  gamesResult : Except Unit (List GameRecord)
  /-- `ProtonGEManager.get_active_proton_path()`. -/
  proton : Option String
  /-- `result.get("success")` of the dependency-install delegate. -/
  depSuccess : Bool
  /-- Outcome of the `wine64 regedit` import. -/
  regImport : ImportOutcome
  /-- Result of `download_modapi_installer` (path of the downloaded
  installer, or `none` on any failure). -/
  download : Option String
  /-- Whether `subprocess.Popen` of the guest installer succeeds. -/
  spawnOk : Bool

/-- `create_spore_registry` (installer.py:86-161) as a state transformer.
The temporary `.reg` file is written (installer.py:122-124) before the
Proton check (installer.py:127-130); the `unlink(missing_ok=True)`
cleanup (installer.py:150) runs only after a `subprocess.run` that
returns normally — on `TimeoutExpired` control jumps to the generic
`except` (installer.py:159-161), skipping the cleanup. -/
def create_spore_registry (spore_path : String) (proton : Option String)
    (outcome : ImportOutcome) (s : PipeSt) : Bool × PipeSt :=
  let s1 := { s with regTmp := some (reg_content spore_path) }
  match proton with
  | none => (false, s1)
  | some _ =>
    let s2 := { s1 with regImportCalls := s1.regImportCalls + 1 }
    match outcome with
    | .exit0 => (true, { s2 with regTmp := none })
    | .exitNonzero => (false, { s2 with regTmp := none })
    | .timedOut => (false, s2)

/-- `download_modapi_installer` (installer.py:163-204) as a state
transformer: the step runs (counted) and yields the oracle's result. -/
def download_modapi_installer (env : PipeEnv) (s : PipeSt) : Option String × PipeSt :=
  (env.download, { s with downloadCalls := s.downloadCalls + 1 })

/-- `launch_installer_with_instructions` (installer.py:206-266) as a
state transformer: fails when no Proton is active, otherwise spawns the
guest installer fire-and-forget (a spawn failure is caught and reported
as `False`). -/
def launch_installer_with_instructions (proton : Option String) (spawnOk : Bool)
    (s : PipeSt) : Bool × PipeSt :=
  match proton with
  | none => (false, s)
  | some _ =>
    if spawnOk then (true, { s with launchCalls := s.launchCalls + 1 })
    else (false, s)

/-- Steps 4-6 of `install` (installer.py:545-571): registry patch
(failure only logged as a warning, result discarded), installer download
(hard failure), installer launch (hard failure). -/
def installAfterDeps (env : PipeEnv) (spore_path : String) (s : PipeSt) :
    Bool × PipeSt :=
  let r3 := create_spore_registry spore_path env.proton env.regImport s
  let r4 := download_modapi_installer env r3.2
  match r4.1 with
  | none => (false, r4.2)
  | some _ => launch_installer_with_instructions env.proton env.spawnOk r4.2

/-- `install` (installer.py:440-577): the top-level pipeline.
Step 1 locate game (hard failure), step 2 create/reuse prefix, step 3
dependency install guarded by the `.dependencies_installed` marker
(delegate failure and missing Proton are hard failures; the marker is
written only after a successful delegate call), then steps 4-6. -/
def install (env : PipeEnv) (s : PipeSt) : Bool × PipeSt :=
  match find_spore_game env.gamesResult with
  | none => (false, s)
  | some spore_game =>
    let s1 := { s with prefixExists := true }
    if s1.markerExists then installAfterDeps env spore_game.path s1
    else
      match env.proton with
      | none => (false, s1)
      | some _ =>
        let s2 := { s1 with depCalls := s1.depCalls + 1 }
        if env.depSuccess then
          installAfterDeps env spore_game.path { s2 with markerExists := true }
        else (false, s2)

/-! ### Launch Script Generator (installer.py lines 302-415) -/

/-- The three fixed guest executables and their script names
(installer.py:327-331), in source order. -/
def modapiExecutables : List (String × String) :=
  [("Spore ModAPI Launcher.exe", "launch_spore_modapi_launcher.sh"),
   ("Spore ModAPI Easy Installer.exe", "launch_spore_modapi_installer.sh"),
   ("Spore ModAPI Easy Uninstaller.exe", "launch_spore_modapi_uninstaller.sh")]

/-- Overwrite-or-add update of the script directory state (a map from
script path to file mode): `write_text` then `chmod` replaces any
existing entry. -/
def setMode (st : List (String × Nat)) (p : String) (m : Nat) : List (String × Nat) :=
  match st with
  | [] => [(p, m)]
  | (p', m') :: rest => if p' = p then (p', m) :: rest else (p', m') :: setMode rest p m

/-- First-match lookup in the script directory state. -/
def lookupMode (st : List (String × Nat)) (p : String) : Option Nat :=
  match st with
  | [] => none
  | (p', m) :: rest => if p' = p then some m else lookupMode rest p

/-- The `for exe_name, script_name in executables` loop of
`create_launch_scripts` (installer.py:335-404): skips executables absent
under `installDir`, otherwise writes the script (mode 493 = 0o755,
unconditionally overwriting) and records the created script name. -/
def scriptsLoop (exists_ : String → Bool) (installDir outDir : String) :
    List (String × String) → List (String × Nat) → List String × List (String × Nat)
  | [], st => ([], st)
  | (exe_name, script_name) :: rest, st =>
    if exists_ (installDir ++ "/" ++ exe_name) then
      let st' := setMode st (outDir ++ "/" ++ script_name) 493
      let r := scriptsLoop exists_ installDir outDir rest st'
      (script_name :: r.1, r.2)
    else scriptsLoop exists_ installDir outDir rest st

/-- `create_launch_scripts` (installer.py:302-415): resolves the ModAPI
install dir (searching via `find_modapi_installation` when not supplied),
requires an active Proton (a `None` here raises at installer.py:323 and
is caught, yielding `False`), runs the script loop, and succeeds iff at
least one script was created.  Script text synthesis is side-effect-free
string work not modelled here; the directory state records which script
files exist and their modes. -/
def create_launch_scripts (exists_ : String → Bool) (proton : Option String)
    (script_output_dir prefixPath : String) (modapi_install_dir : Option String)
    (st : List (String × Nat)) : Bool × List (String × Nat) :=
  match (match modapi_install_dir with
         | some d => some d
         | none => find_modapi_installation exists_ prefixPath) with
  | none => (false, st)
  | some installDir =>
    match proton with
    | none => (false, st)
    | some _ =>
      let r := scriptsLoop exists_ installDir script_output_dir modapiExecutables st
      (!r.1.isEmpty, r.2)

/-! ### Counting lemmas -/

/-- A token that does not contain the character `c` matches at the start of
`u ++ c :: b` exactly when it matches at the start of `u` alone: the match
cannot reach past the barrier character `c`. -/
theorem tokenAt_append_stop (c : Char) (b : List Char) :
    ∀ (tok u : List Char), c ∉ tok → tokenAt tok (u ++ c :: b) = tokenAt tok u := by
  intro tok
  induction tok with
  | nil => intro u _; simp [tokenAt]
  | cons t ts ih =>
    intro u hc
    rw [List.mem_cons] at hc
    push_neg at hc
    cases u with
    | nil =>
      have ht : (t == c) = false := by
        simp only [beq_eq_false_iff_ne, ne_eq]
        exact fun h => hc.1 h.symm
      simp [tokenAt, ht]
    | cons x u' =>
      simp only [List.cons_append, tokenAt, List.append_eq]
      rw [ih u' hc.2]

/-- A nonempty token never occurs in the empty list. -/
theorem countOcc_nil (t : Char) (ts : List Char) : countOcc (t :: ts) [] = 0 := by
  simp [countOcc, tokenAt]

/-- Splitting lemma: occurrences of a nonempty token across `a ++ c :: b`
split additively when the boundary character `c` is not a character of the
token (no occurrence can span the boundary). -/
theorem countOcc_append_cons (t : Char) (ts : List Char) (c : Char)
    (hc : c ∉ t :: ts) :
    ∀ (a b : List Char),
      countOcc (t :: ts) (a ++ c :: b) =
        countOcc (t :: ts) a + countOcc (t :: ts) (c :: b) := by
  intro a b
  induction a with
  | nil => simp [countOcc_nil]
  | cons x a' ih =>
    have htok : tokenAt (t :: ts) (x :: (a' ++ c :: b)) = tokenAt (t :: ts) (x :: a') := by
      have h := tokenAt_append_stop c b (t :: ts) (x :: a') hc
      simpa using h
    simp only [List.cons_append, countOcc, List.append_eq]
    simp only [htok, ih]
    simp only [countOcc]
    omega

/-- Splitting lemma stated via the head of the right part. -/
theorem countOcc_append_split (t : Char) (ts : List Char) (a b : List Char)
    (c : Char) (hhead : b.head? = some c) (hc : c ∉ t :: ts) :
    countOcc (t :: ts) (a ++ b) =
      countOcc (t :: ts) a + countOcc (t :: ts) b := by
  cases b with
  | nil => simp at hhead
  | cons c' b' =>
    simp only [List.head?_cons, Option.some.injEq] at hhead
    subst hhead
    exact countOcc_append_cons t ts c' hc a b'

/-- A token whose first character does not appear in `w` has no occurrence
in `w`. -/
theorem countOcc_eq_zero (t : Char) (ts : List Char) :
    ∀ w : List Char, t ∉ w → countOcc (t :: ts) w = 0 := by
  intro w
  induction w with
  | nil => intro _; simp [countOcc, tokenAt]
  | cons x w' ih =>
    intro h
    rw [List.mem_cons] at h
    push_neg at h
    have hx : (t == x) = false := by
      simp only [beq_eq_false_iff_ne, ne_eq]
      exact h.1
    simp [countOcc, tokenAt, hx, ih h.2]

/-- Characters of `expand f l` come from `f` applied to characters of `l`. -/
theorem mem_expand {f : Char → List Char} {c : Char} :
    ∀ {l : List Char}, c ∈ expand f l → ∃ x ∈ l, c ∈ f x := by
  intro l
  induction l with
  | nil => intro h; simp [expand] at h
  | cons x l' ih =>
    intro h
    simp only [expand, List.mem_append] at h
    cases h with
    | inl h => exact ⟨x, List.mem_cons_self x l', h⟩
    | inr h =>
      obtain ⟨y, hy, hc⟩ := ih h
      exact ⟨y, List.mem_cons_of_mem x hy, hc⟩

/-- Characters produced by the registry-mode expansion are backslashes or
characters of the input. -/
theorem mem_expand_regRepl {c : Char} {l : List Char}
    (h : c ∈ expand regRepl l) : c = '\\' ∨ c ∈ l := by
  obtain ⟨x, hx, hc⟩ := mem_expand h
  unfold regRepl at hc
  by_cases hsl : x = '/'
  · rw [if_pos hsl] at hc
    simp at hc
    exact Or.inl hc
  · rw [if_neg hsl] at hc
    simp at hc
    subst hc
    exact Or.inr hx

/-- Characters of `regTail` are `:`, backslash, characters of the path, or
characters of the suffix. -/
theorem mem_regTail {c : Char} {p suf : String} (h : c ∈ regTail p suf) :
    c = ':' ∨ c = '\\' ∨ c ∈ p.data ∨ c ∈ suf.data := by
  simp only [regTail, List.mem_cons, List.mem_append] at h
  rcases h with h | h | h | h | h
  · exact Or.inl h
  · exact Or.inr (Or.inl h)
  · exact Or.inr (Or.inl h)
  · rcases mem_expand_regRepl h with h' | h'
    · exact Or.inr (Or.inl h')
    · exact Or.inr (Or.inr (Or.inl h'))
  · exact Or.inr (Or.inr (Or.inr h))

/-- A character distinct from `Z`, `:`, backslash, the characters of `p`
and the characters of `suf` does not occur in the interpolated wine path
`'Z' :: regTail p suf`. -/
theorem not_mem_wineTail (c : Char) (p suf : String) (hc1 : c ≠ 'Z')
    (hc2 : c ≠ ':') (hc3 : c ≠ '\\') (hp : c ∉ p.data) (hs : c ∉ suf.data) :
    c ∉ 'Z' :: regTail p suf := by
  intro h
  rcases List.mem_cons.mp h with h | h
  · exact hc1 h
  · rcases mem_regTail h with h | h | h | h
    · exact hc2 h
    · exact hc3 h
    · exact hp h
    · exact hs h

/-- `String.data` distributes over string append. -/
theorem strData_append (a b : String) : (a ++ b).data = a.data ++ b.data := rfl

/-- The head of an append is the head of its nonempty left part. -/
theorem head?_append_left {w : List Char} {c : Char} (G : List Char)
    (h : w.head? = some c) : (w ++ G).head? = some c := by
  cases w with
  | nil => simp at h
  | cons x w' => simpa using h

/-- The head of a glued document is the head of its leading segment. -/
theorem head?_glue {s : List Char} {c : Char}
    (blocks : List (List Char × List Char)) (h : s.head? = some c) :
    (glue s blocks).head? = some c := by
  cases blocks with
  | nil => simpa [glue] using h
  | cons b rest =>
    obtain ⟨w, sg⟩ := b
    simp only [glue]
    exact head?_append_left _ h

/-- Occurrence counting of a nonempty token over a glued document whose
interpolations never contain the token's first character, and whose
boundary heads are characters outside the token: the count is the sum of
the counts in the fixed segments. -/
theorem countOcc_glue (t0 : Char) (ts : List Char) :
    ∀ (blocks : List (List Char × List Char)) (s : List Char),
      (∀ b ∈ blocks,
        (∃ c, b.1.head? = some c ∧ c ∉ t0 :: ts) ∧ t0 ∉ b.1 ∧
          (∃ c, b.2.head? = some c ∧ c ∉ t0 :: ts)) →
      countOcc (t0 :: ts) (glue s blocks) =
        countOcc (t0 :: ts) s +
          (blocks.map (fun b => countOcc (t0 :: ts) b.2)).sum := by
  intro blocks
  induction blocks with
  | nil => intro s _; simp [glue]
  | cons b rest ih =>
    intro s hb
    obtain ⟨w, sg⟩ := b
    obtain ⟨⟨cw, hcw, hcwtok⟩, hw0, ⟨cs, hcs, hcstok⟩⟩ := hb _ (List.mem_cons_self _ _)
    have hrest := fun b hbm => hb b (List.mem_cons_of_mem _ hbm)
    simp only [glue]
    rw [countOcc_append_split t0 ts s (w ++ glue sg rest) cw
      (head?_append_left _ hcw) hcwtok]
    rw [countOcc_append_split t0 ts w (glue sg rest) cs (head?_glue rest hcs) hcstok]
    rw [countOcc_eq_zero t0 ts w hw0, ih sg hrest]
    simp only [List.map_cons, List.sum_cons]
    omega

/-- The registry document decomposes into the glued alternation of the
four fixed template segments and the three interpolated wine paths. -/
theorem reg_content_glue (p : String) :
    (reg_content p).data =
      glue regSegA.data
        [('Z' :: regTail p "\\\\Data", regSegB.data),
         ('Z' :: regTail p "\\\\bp1content", regSegC.data),
         ('Z' :: regTail p "\\\\DataEP1", regSegD.data)] := by
  have hconv : ∀ q : String, (convert_to_wine_path_registry q).data =
      'Z' :: ':' :: '\\' :: '\\' :: expand regRepl q.data := fun _ => rfl
  simp only [reg_content, glue, regTail, strData_append, hconv,
    List.append_assoc, List.cons_append]

/-! ### Backslash-run lemmas -/

/-- `noAdjSlash` restricted to a tail. -/
theorem noAdjSlash_tail (c : Char) (q : List Char)
    (h : noAdjSlash (c :: q) = true) : noAdjSlash q = true := by
  cases q with
  | nil => rfl
  | cons d r =>
    simp only [noAdjSlash, Bool.and_eq_true] at h
    exact h.2

/-- After a slash, a `noAdjSlash` list cannot continue with a slash. -/
theorem noAdjSlash_head (q : List Char)
    (h : noAdjSlash ('/' :: q) = true) : q.head? ≠ some '/' := by
  cases q with
  | nil => simp
  | cons d r =>
    simp only [noAdjSlash, Bool.and_eq_true, Bool.not_eq_true',
      Bool.and_eq_false_iff] at h
    intro hd
    simp only [List.head?_cons, Option.some.injEq] at hd
    subst hd
    rcases h.1 with h1 | h1 <;> simp at h1

/-- In the registry-mode expansion of a backslash-free list, every
backslash run (with an even-length run already open) has even length:
each `/` contributes exactly two backslashes. -/
theorem runsAux_reg_even :
    ∀ (q : List Char) (m : Nat), '\\' ∉ q → m % 2 = 0 →
      ∀ r ∈ runsAux (expand regRepl q) m, r % 2 = 0 := by
  intro q
  induction q with
  | nil =>
    intro m _ hm r hr
    simp only [expand, runsAux] at hr
    by_cases h0 : m = 0
    · simp [h0] at hr
    · simp only [if_neg h0, List.mem_singleton] at hr
      omega
  | cons c q' ih =>
    intro m hbs hm r hr
    have hbs' : '\\' ∉ q' := fun h => hbs (List.mem_cons_of_mem _ h)
    by_cases hsl : c = '/'
    · subst hsl
      simp only [expand, regRepl, if_pos rfl, List.cons_append, List.nil_append,
        runsAux, if_pos rfl] at hr
      exact ih (m + 2) hbs' (by omega) r hr
    · have hcb : c ≠ '\\' := fun h => hbs (h ▸ List.mem_cons_self c q')
      simp only [expand, regRepl, if_neg hsl, List.cons_append, List.nil_append,
        runsAux, if_neg hcb] at hr
      by_cases h0 : m = 0
      · simp only [if_pos h0] at hr
        exact ih 0 hbs' (by omega) r hr
      · simp only [if_neg h0, List.mem_cons] at hr
        rcases hr with rfl | hr
        · exact hm
        · exact ih 0 hbs' (by omega) r hr

/-- In the display-mode expansion of a backslash-free, adjacent-slash-free
list, all backslash runs have length one (first conjunct: no run open;
second: a run of length one open and the list does not begin with a
slash). -/
theorem runsAux_disp_ones :
    ∀ q : List Char, '\\' ∉ q → noAdjSlash q = true →
      (∀ r ∈ runsAux (expand dispRepl q) 0, r = 1) ∧
        (q.head? ≠ some '/' → ∀ r ∈ runsAux (expand dispRepl q) 1, r = 1) := by
  intro q
  induction q with
  | nil =>
    intro _ _
    refine ⟨by simp [expand, runsAux], fun _ r hr => ?_⟩
    simp only [expand, runsAux] at hr
    simpa using hr
  | cons c q' ih =>
    intro hbs hadj
    have hbs' : '\\' ∉ q' := fun h => hbs (List.mem_cons_of_mem _ h)
    have hadj' : noAdjSlash q' = true := noAdjSlash_tail c q' hadj
    have ih' := ih hbs' hadj'
    constructor
    · intro r hr
      by_cases hsl : c = '/'
      · subst hsl
        simp only [expand, dispRepl, if_pos rfl, List.cons_append, List.nil_append,
          runsAux, if_pos rfl] at hr
        exact ih'.2 (noAdjSlash_head q' hadj) r hr
      · have hcb : c ≠ '\\' := fun h => hbs (h ▸ List.mem_cons_self c q')
        simp only [expand, dispRepl, if_neg hsl, List.cons_append, List.nil_append,
          runsAux, if_neg hcb, if_pos rfl] at hr
        exact ih'.1 r hr
    · intro hhead r hr
      have hsl : c ≠ '/' := by
        simp only [List.head?_cons, ne_eq, Option.some.injEq] at hhead
        exact hhead
      have hcb : c ≠ '\\' := fun h => hbs (h ▸ List.mem_cons_self c q')
      simp only [expand, dispRepl, if_neg hsl, List.cons_append, List.nil_append,
        runsAux, if_neg hcb] at hr
      rw [if_neg (by omega : ¬(1 : Nat) = 0)] at hr
      rw [List.mem_cons] at hr
      rcases hr with rfl | hr
      · rfl
      · exact ih'.1 r hr

/-- With a doubled backslash already open, the display-mode expansion of a
list not starting with a slash yields the run list `2 :: (all ones)`. -/
theorem runsAux_disp_two (q : List Char) (hbs : '\\' ∉ q)
    (hadj : noAdjSlash q = true) (hhead : q.head? ≠ some '/') :
    ∃ l, runsAux (expand dispRepl q) 2 = 2 :: l ∧ ∀ r ∈ l, r = 1 := by
  cases q with
  | nil => exact ⟨[], by simp [expand, runsAux], by simp⟩
  | cons c q' =>
    have hsl : c ≠ '/' := by
      simp only [List.head?_cons, ne_eq, Option.some.injEq] at hhead
      exact hhead
    have hcb : c ≠ '\\' := fun h => hbs (h ▸ List.mem_cons_self c q')
    have hbs' : '\\' ∉ q' := fun h => hbs (List.mem_cons_of_mem _ h)
    have hadj' : noAdjSlash q' = true := noAdjSlash_tail c q' hadj
    refine ⟨runsAux (expand dispRepl q') 0, ?_, (runsAux_disp_ones q' hbs' hadj').1⟩
    simp [expand, dispRepl, if_neg hsl, List.cons_append, runsAux, if_neg hcb]

/-! ### Environment-dictionary lemmas -/

/-- Assignment followed by lookup of the same key yields the assigned
value. -/
theorem lookupD_dictSet_same : ∀ (d : List (String × String)) (k v : String),
    lookupD (dictSet d k v) k = some v := by
  intro d
  induction d with
  | nil => intro k v; simp [dictSet, lookupD]
  | cons kv rest ih =>
    intro k v
    obtain ⟨k', v'⟩ := kv
    by_cases h : k' = k
    · simp [dictSet, lookupD, h]
    · simp [dictSet, lookupD, h, ih]

/-- Assignment leaves lookups of other keys unchanged. -/
theorem lookupD_dictSet_other : ∀ (d : List (String × String)) (k v k' : String),
    k ≠ k' → lookupD (dictSet d k v) k' = lookupD d k' := by
  intro d
  induction d with
  | nil =>
    intro k v k' hk
    simp only [dictSet, lookupD, if_neg hk]
  | cons kv rest ih =>
    intro k v k' hk
    obtain ⟨k0, v0⟩ := kv
    by_cases h : k0 = k
    · subst h
      simp only [dictSet, if_pos rfl, lookupD]
      rw [if_neg hk, if_neg hk]
    · simp only [dictSet, if_neg h, lookupD]
      by_cases h' : k0 = k'
      · simp [h']
      · simp [h', ih k v k' hk]

/-! ### String append cancellation -/

/-- Left cancellation for string append. -/
theorem strAppend_cancel_left {a b c : String} (h : a ++ b = a ++ c) : b = c := by
  have hd : a.data ++ b.data = a.data ++ c.data := by
    have h1 : (a ++ b).data = (a ++ c).data := congrArg String.data h
    simpa [strData_append] using h1
  have hbc : b.data = c.data := List.append_cancel_left hd
  cases b
  cases c
  exact congrArg String.mk hbc

/-! ### Launch-script loop lemmas -/

/-- Lookup after an overwrite-or-add at the same path. -/
theorem lookupMode_setMode_same : ∀ (st : List (String × Nat)) (p : String) (m : Nat),
    lookupMode (setMode st p m) p = some m := by
  intro st
  induction st with
  | nil => intro p m; simp [setMode, lookupMode]
  | cons pm rest ih =>
    intro p m
    obtain ⟨p', m'⟩ := pm
    by_cases h : p' = p
    · simp [setMode, lookupMode, h]
    · simp [setMode, lookupMode, h, ih]

/-- Lookup of another path after an overwrite-or-add. -/
theorem lookupMode_setMode_other : ∀ (st : List (String × Nat)) (p : String) (m : Nat)
    (p' : String), p ≠ p' → lookupMode (setMode st p m) p' = lookupMode st p' := by
  intro st
  induction st with
  | nil =>
    intro p m p' hp
    simp only [setMode, lookupMode, if_neg hp]
  | cons pm rest ih =>
    intro p m p' hp
    obtain ⟨p0, m0⟩ := pm
    by_cases h : p0 = p
    · subst h
      simp only [setMode, if_pos rfl, lookupMode]
      rw [if_neg hp, if_neg hp]
    · simp only [setMode, if_neg h, lookupMode]
      by_cases h' : p0 = p'
      · simp [h']
      · simp [h', ih p m p' hp]

/-- Unfolding of the script loop on a symbolic head pair. -/
theorem scriptsLoop_cons (e : String → Bool) (d o : String) (y : String × String)
    (rest : List (String × String)) (st : List (String × Nat)) :
    scriptsLoop e d o (y :: rest) st =
      if e (d ++ "/" ++ y.1) then
        ((y.2 :: (scriptsLoop e d o rest (setMode st (o ++ "/" ++ y.2) 493)).1),
          (scriptsLoop e d o rest (setMode st (o ++ "/" ++ y.2) 493)).2)
      else scriptsLoop e d o rest st := by
  obtain ⟨en, sn⟩ := y
  rfl

/-- The list of created script names is the fixed executable list filtered
by existence, in source order. -/
theorem scriptsLoop_created (e : String → Bool) (d o : String) :
    ∀ (items : List (String × String)) (st : List (String × Nat)),
      (scriptsLoop e d o items st).1 =
        (items.filter (fun x => e (d ++ "/" ++ x.1))).map Prod.snd := by
  intro items
  induction items with
  | nil => intro st; simp [scriptsLoop]
  | cons y rest ih =>
    intro st
    rw [scriptsLoop_cons]
    by_cases h : e (d ++ "/" ++ y.1) = true
    · simp [h, List.filter_cons, ih]
    · simp only [Bool.not_eq_true] at h
      simp [h, List.filter_cons, ih]

/-- The script loop does not touch directory entries at paths other than
those of the scripts it actually writes. -/
theorem scriptsLoop_preserved (e : String → Bool) (d o : String) :
    ∀ (items : List (String × String)) (st : List (String × Nat)) (p : String),
      (∀ z ∈ items, e (d ++ "/" ++ z.1) = true → o ++ "/" ++ z.2 ≠ p) →
      lookupMode (scriptsLoop e d o items st).2 p = lookupMode st p := by
  intro items
  induction items with
  | nil => intro st p _; simp [scriptsLoop]
  | cons y rest ih =>
    intro st p hz
    have hzr : ∀ z ∈ rest, e (d ++ "/" ++ z.1) = true → o ++ "/" ++ z.2 ≠ p :=
      fun z hm => hz z (List.mem_cons_of_mem _ hm)
    rw [scriptsLoop_cons]
    by_cases h : e (d ++ "/" ++ y.1) = true
    · have hz0 : o ++ "/" ++ y.2 ≠ p := hz y (List.mem_cons_self _ _) h
      rw [if_pos h]
      rw [ih (setMode st (o ++ "/" ++ y.2) 493) p hzr]
      exact lookupMode_setMode_other st (o ++ "/" ++ y.2) 493 p hz0
    · simp only [Bool.not_eq_true] at h
      rw [if_neg (by simp [h])]
      exact ih st p hzr

/-- Every executable present under the install dir ends up with its script
written at mode 493, provided the fixed script names are pairwise
distinct. -/
theorem scriptsLoop_mode (e : String → Bool) (d o : String) :
    ∀ (items : List (String × String)) (st : List (String × Nat)) (x : String × String),
      x ∈ items → items.Pairwise (fun a b => a.2 ≠ b.2) →
      e (d ++ "/" ++ x.1) = true →
      lookupMode (scriptsLoop e d o items st).2 (o ++ "/" ++ x.2) = some 493 := by
  intro items
  induction items with
  | nil => intro st x hx _ _; exact absurd hx (List.not_mem_nil x)
  | cons y rest ih =>
    intro st x hx hpw hex
    have hpw' := (List.pairwise_cons.mp hpw).2
    have hhd := (List.pairwise_cons.mp hpw).1
    rw [scriptsLoop_cons]
    rcases List.mem_cons.mp hx with heq | hx'
    · subst heq
      rw [if_pos hex]
      have hdiff : ∀ z ∈ rest, e (d ++ "/" ++ z.1) = true →
          o ++ "/" ++ z.2 ≠ o ++ "/" ++ x.2 := by
        intro z hz _ h
        exact hhd z hz (strAppend_cancel_left h).symm
      show lookupMode (scriptsLoop e d o rest (setMode st (o ++ "/" ++ x.2) 493)).2
        (o ++ "/" ++ x.2) = some 493
      rw [scriptsLoop_preserved e d o rest _ _ hdiff]
      exact lookupMode_setMode_same st (o ++ "/" ++ x.2) 493
    · by_cases h : e (d ++ "/" ++ y.1) = true
      · rw [if_pos h]
        show lookupMode (scriptsLoop e d o rest (setMode st (o ++ "/" ++ y.2) 493)).2
          (o ++ "/" ++ x.2) = some 493
        exact ih _ x hx' hpw' hex
      · simp only [Bool.not_eq_true] at h
        rw [if_neg (by simp [h])]
        exact ih st x hx' hpw' hex

/-! ### Game-locate lemmas -/

/-- The source's first-match loop is `List.find?` with the
lowercased-substring predicate. -/
theorem findSporeLoop_eq_find? :
    ∀ gs : List GameRecord,
      findSporeLoop gs = gs.find? (fun g => containsTok (toLowerStr g.name) "spore") := by
  intro gs
  induction gs with
  | nil => rfl
  | cons g rest ih =>
    by_cases h : containsTok (toLowerStr g.name) "spore" = true
    · simp [findSporeLoop, h, List.find?_cons, ih]
    · simp only [Bool.not_eq_true] at h
      simp [findSporeLoop, h, List.find?_cons, ih]

/-- A record returned by the loop is a member of the list and its
lowercased name contains "spore". -/
theorem findSporeLoop_prop :
    ∀ (gs : List GameRecord) (g : GameRecord), findSporeLoop gs = some g →
      g ∈ gs ∧ containsTok (toLowerStr g.name) "spore" = true := by
  intro gs
  induction gs with
  | nil => intro g h; simp [findSporeLoop] at h
  | cons a rest ih =>
    intro g h
    by_cases ha : containsTok (toLowerStr a.name) "spore" = true
    · rw [findSporeLoop, if_pos ha] at h
      obtain rfl : a = g := by injection h
      exact ⟨List.mem_cons_self _ _, ha⟩
    · simp only [Bool.not_eq_true] at ha
      rw [findSporeLoop, if_neg (by simp [ha])] at h
      obtain ⟨hm, hp⟩ := ih g h
      exact ⟨List.mem_cons_of_mem _ hm, hp⟩

/-! ### Pipeline-step preservation -/

/-- Steps 4-6 of the pipeline never touch the dependency marker, the
dependency-call counter, or the prefix flag. -/
theorem installAfterDeps_preserves (env : PipeEnv) (sp : String) (s : PipeSt) :
    (installAfterDeps env sp s).2.markerExists = s.markerExists ∧
      (installAfterDeps env sp s).2.depCalls = s.depCalls ∧
      (installAfterDeps env sp s).2.prefixExists = s.prefixExists := by
  unfold installAfterDeps create_spore_registry download_modapi_installer
    launch_installer_with_instructions
  rcases env.proton with _ | pp <;> rcases env.regImport <;>
    rcases env.download with _ | dl <;> rcases env.spawnOk <;> simp

/-- When a game was found and the marker is present, the pipeline jumps
straight to the post-dependency steps. -/
theorem install_eq_of_marker (env : PipeEnv) (g : GameRecord) (t : PipeSt)
    (hg : find_spore_game env.gamesResult = some g) (ht : t.markerExists = true) :
    install env t = installAfterDeps env g.path { t with prefixExists := true } := by
  simp [install, hg, ht]

/-- When a game was found, the marker is absent, Proton is active and the
dependency delegate succeeds, the pipeline increments the delegate
counter, writes the marker, and proceeds to the post-dependency steps. -/
theorem install_eq_of_no_marker (env : PipeEnv) (g : GameRecord) (pp : String)
    (t : PipeSt) (hg : find_spore_game env.gamesResult = some g)
    (ht : t.markerExists = false) (hp : env.proton = some pp)
    (hd : env.depSuccess = true) :
    install env t =
      installAfterDeps env g.path
        { t with prefixExists := true, depCalls := t.depCalls + 1,
                 markerExists := true } := by
  simp [install, hg, ht, hp, hd]

/-! ### Claim theorems -/

/-- C1 (amended): for every install path that does not itself contain the
placeholder character `%` or the key-header character `[`, the registry
document built by `create_spore_registry` contains exactly four key-block
headers and exactly two (not one) occurrences of the literal placeholder
token `%CDKEY%`. -/
theorem C1_registry_document_counts (p : String)
    (hpc : '%' ∉ p.data) (hpb : '[' ∉ p.data) :
    countSubstr (reg_content p) "[HKEY_LOCAL_MACHINE" = 4 ∧
      countSubstr (reg_content p) "%CDKEY%" = 2 := by
  constructor
  · show countOcc ("[HKEY_LOCAL_MACHINE" : String).data (reg_content p).data = 4
    have hball : ∀ b ∈ [('Z' :: regTail p "\\\\Data", regSegB.data),
        ('Z' :: regTail p "\\\\bp1content", regSegC.data),
        ('Z' :: regTail p "\\\\DataEP1", regSegD.data)],
        (∃ c, b.1.head? = some c ∧ c ∉ '[' :: ("HKEY_LOCAL_MACHINE" : String).data) ∧
          '[' ∉ b.1 ∧
          (∃ c, b.2.head? = some c ∧ c ∉ '[' :: ("HKEY_LOCAL_MACHINE" : String).data) := by
      intro b hb
      simp only [List.mem_cons, List.not_mem_nil, or_false] at hb
      rcases hb with rfl | rfl | rfl
      · exact ⟨⟨'Z', rfl, by decide⟩,
          not_mem_wineTail '[' p "\\\\Data" (by decide) (by decide) (by decide) hpb
            (by decide),
          ⟨'"', rfl, by decide⟩⟩
      · exact ⟨⟨'Z', rfl, by decide⟩,
          not_mem_wineTail '[' p "\\\\bp1content" (by decide) (by decide) (by decide) hpb
            (by decide),
          ⟨'\\', rfl, by decide⟩⟩
      · exact ⟨⟨'Z', rfl, by decide⟩,
          not_mem_wineTail '[' p "\\\\DataEP1" (by decide) (by decide) (by decide) hpb
            (by decide),
          ⟨'\\', rfl, by decide⟩⟩
    rw [show ("[HKEY_LOCAL_MACHINE" : String).data
        = '[' :: ("HKEY_LOCAL_MACHINE" : String).data from rfl]
    rw [reg_content_glue p]
    rw [countOcc_glue '[' ("HKEY_LOCAL_MACHINE" : String).data _ regSegA.data hball]
    simp only [List.map_cons, List.map_nil, List.sum_cons, List.sum_nil]
    decide
  · show countOcc ("%CDKEY%" : String).data (reg_content p).data = 2
    have hball : ∀ b ∈ [('Z' :: regTail p "\\\\Data", regSegB.data),
        ('Z' :: regTail p "\\\\bp1content", regSegC.data),
        ('Z' :: regTail p "\\\\DataEP1", regSegD.data)],
        (∃ c, b.1.head? = some c ∧ c ∉ '%' :: ("CDKEY%" : String).data) ∧
          '%' ∉ b.1 ∧
          (∃ c, b.2.head? = some c ∧ c ∉ '%' :: ("CDKEY%" : String).data) := by
      intro b hb
      simp only [List.mem_cons, List.not_mem_nil, or_false] at hb
      rcases hb with rfl | rfl | rfl
      · exact ⟨⟨'Z', rfl, by decide⟩,
          not_mem_wineTail '%' p "\\\\Data" (by decide) (by decide) (by decide) hpc
            (by decide),
          ⟨'"', rfl, by decide⟩⟩
      · exact ⟨⟨'Z', rfl, by decide⟩,
          not_mem_wineTail '%' p "\\\\bp1content" (by decide) (by decide) (by decide) hpc
            (by decide),
          ⟨'\\', rfl, by decide⟩⟩
      · exact ⟨⟨'Z', rfl, by decide⟩,
          not_mem_wineTail '%' p "\\\\DataEP1" (by decide) (by decide) (by decide) hpc
            (by decide),
          ⟨'\\', rfl, by decide⟩⟩
    rw [show ("%CDKEY%" : String).data = '%' :: ("CDKEY%" : String).data from rfl]
    rw [reg_content_glue p]
    rw [countOcc_glue '%' ("CDKEY%" : String).data _ regSegA.data hball]
    simp only [List.map_cons, List.map_nil, List.sum_cons, List.sum_nil]
    decide

/-- C1 witness: the amended count theorem evaluated at a concrete install
path. -/
theorem C1_registry_document_counts_witness :
    ('%' ∉ ("/home/user/Spore" : String).data ∧
        '[' ∉ ("/home/user/Spore" : String).data) ∧
      (countSubstr (reg_content "/home/user/Spore") "[HKEY_LOCAL_MACHINE" = 4 ∧
        countSubstr (reg_content "/home/user/Spore") "%CDKEY%" = 2) :=
  ⟨⟨by decide, by decide⟩,
    C1_registry_document_counts "/home/user/Spore" (by decide) (by decide)⟩

/-- C1 counterexample: at a concrete install path the document contains
two `%CDKEY%` tokens (the template has one in the `ergc` block and one as
`ProductKey` in the `SPORE_EP1` block), so the claimed count of exactly
one is false. -/
theorem C1_counterexample :
    countSubstr (reg_content "/home/user/Spore") "%CDKEY%" = 2 ∧
      countSubstr (reg_content "/home/user/Spore") "%CDKEY%" ≠ 1 := by
  exact ⟨by decide, by decide⟩

/-- C2: with the marker initially absent and the first delegate call
succeeding, running the pipeline twice invokes the dependency-install
delegate exactly once; the marker is set by the first run, a run that
finds the marker leaves the delegate counter untouched, and the marker is
never written after an unsuccessful delegate call. -/
theorem C2_dependency_step_idempotent (env : PipeEnv) (g : GameRecord)
    (pp : String) (s : PipeSt)
    (hg : find_spore_game env.gamesResult = some g)
    (hm : s.markerExists = false) (hp : env.proton = some pp)
    (hd : env.depSuccess = true) :
    ((install env s).2.markerExists = true) ∧
      ((install env s).2.depCalls = s.depCalls + 1) ∧
      ((install env ((install env s).2)).2.depCalls = s.depCalls + 1) ∧
      (∀ t : PipeSt, t.markerExists = true →
        (install env t).2.depCalls = t.depCalls) ∧
      (∀ (env' : PipeEnv) (t : PipeSt), t.markerExists = false →
        env'.depSuccess = false → (install env' t).2.markerExists = false) := by
  have h1 := install_eq_of_no_marker env g pp s hg hm hp hd
  have hmk1 : (install env s).2.markerExists = true := by
    rw [h1, (installAfterDeps_preserves env g.path _).1]
  have hdep1 : (install env s).2.depCalls = s.depCalls + 1 := by
    rw [h1, (installAfterDeps_preserves env g.path _).2.1]
  refine ⟨hmk1, hdep1, ?_, ?_, ?_⟩
  · rw [install_eq_of_marker env g _ hg hmk1,
      (installAfterDeps_preserves env g.path _).2.1]
    exact hdep1
  · intro t ht
    rw [install_eq_of_marker env g t hg ht,
      (installAfterDeps_preserves env g.path _).2.1]
  · intro env' t ht hd'
    rcases hfind : find_spore_game env'.gamesResult with _ | g'
    · simp [install, hfind, ht]
    · rcases hproton : env'.proton with _ | pp'
      · simp [install, hfind, ht, hproton]
      · simp [install, hfind, ht, hproton, hd']

/-- C2 witness: the idempotence theorem evaluated on a concrete oracle
and initial state. -/
theorem C2_dependency_step_idempotent_witness :
    (find_spore_game (Except.ok [(⟨"Spore", "/games/spore", "steam"⟩ : GameRecord)])
        = some ⟨"Spore", "/games/spore", "steam"⟩) ∧
      ((install
          ⟨Except.ok [⟨"Spore", "/games/spore", "steam"⟩], some "/pt", true,
            ImportOutcome.exit0, some "/dl/setup.exe", true⟩
          ⟨false, false, 0, none, 0, 0, 0⟩).2.markerExists = true) ∧
      ((install
          ⟨Except.ok [⟨"Spore", "/games/spore", "steam"⟩], some "/pt", true,
            ImportOutcome.exit0, some "/dl/setup.exe", true⟩
          ⟨false, false, 0, none, 0, 0, 0⟩).2.depCalls = 0 + 1) :=
  ⟨by decide,
    (C2_dependency_step_idempotent
      ⟨Except.ok [⟨"Spore", "/games/spore", "steam"⟩], some "/pt", true,
        ImportOutcome.exit0, some "/dl/setup.exe", true⟩
      ⟨"Spore", "/games/spore", "steam"⟩ "/pt" ⟨false, false, 0, none, 0, 0, 0⟩
      (by decide) rfl rfl rfl).1,
    (C2_dependency_step_idempotent
      ⟨Except.ok [⟨"Spore", "/games/spore", "steam"⟩], some "/pt", true,
        ImportOutcome.exit0, some "/dl/setup.exe", true⟩
      ⟨"Spore", "/games/spore", "steam"⟩ "/pt" ⟨false, false, 0, none, 0, 0, 0⟩
      (by decide) rfl rfl rfl).2.1⟩

/-- C3: a failed registry import (nonzero exit of the bounded import) does
not halt the pipeline: the registry step reports failure, yet the download
and launch steps still run and the pipeline reports overall success. -/
theorem C3_registry_failure_nonfatal (env : PipeEnv) (g : GameRecord)
    (pp d : String) (s : PipeSt)
    (hg : find_spore_game env.gamesResult = some g)
    (hp : env.proton = some pp) (hm : s.markerExists = true)
    (hr : env.regImport = ImportOutcome.exitNonzero)
    (hdl : env.download = some d) (hsp : env.spawnOk = true) :
    (∀ t : PipeSt, (create_spore_registry g.path env.proton env.regImport t).1 = false) ∧
      (install env s).1 = true ∧
      (install env s).2.downloadCalls = s.downloadCalls + 1 ∧
      (install env s).2.launchCalls = s.launchCalls + 1 := by
  have h1 := install_eq_of_marker env g s hg hm
  refine ⟨?_, ?_, ?_, ?_⟩
  · intro t
    simp [create_spore_registry, hp, hr]
  · rw [h1]
    simp [installAfterDeps, create_spore_registry, download_modapi_installer,
      launch_installer_with_instructions, hp, hr, hdl, hsp]
  · rw [h1]
    simp [installAfterDeps, create_spore_registry, download_modapi_installer,
      launch_installer_with_instructions, hp, hr, hdl, hsp]
  · rw [h1]
    simp [installAfterDeps, create_spore_registry, download_modapi_installer,
      launch_installer_with_instructions, hp, hr, hdl, hsp]

/-- C3 witness: the soft-failure theorem evaluated on a concrete oracle
with a failing registry import. -/
theorem C3_registry_failure_nonfatal_witness :
    ((install
        ⟨Except.ok [⟨"Spore", "/games/spore", "steam"⟩], some "/pt", true,
          ImportOutcome.exitNonzero, some "/dl/setup.exe", true⟩
        ⟨true, true, 1, none, 0, 0, 0⟩).1 = true) ∧
      ((install
          ⟨Except.ok [⟨"Spore", "/games/spore", "steam"⟩], some "/pt", true,
            ImportOutcome.exitNonzero, some "/dl/setup.exe", true⟩
          ⟨true, true, 1, none, 0, 0, 0⟩).2.downloadCalls = 0 + 1) :=
  ⟨(C3_registry_failure_nonfatal
      ⟨Except.ok [⟨"Spore", "/games/spore", "steam"⟩], some "/pt", true,
        ImportOutcome.exitNonzero, some "/dl/setup.exe", true⟩
      ⟨"Spore", "/games/spore", "steam"⟩ "/pt" "/dl/setup.exe"
      ⟨true, true, 1, none, 0, 0, 0⟩ (by decide) rfl rfl rfl rfl rfl).2.1,
    (C3_registry_failure_nonfatal
      ⟨Except.ok [⟨"Spore", "/games/spore", "steam"⟩], some "/pt", true,
        ImportOutcome.exitNonzero, some "/dl/setup.exe", true⟩
      ⟨"Spore", "/games/spore", "steam"⟩ "/pt" "/dl/setup.exe"
      ⟨true, true, 1, none, 0, 0, 0⟩ (by decide) rfl rfl rfl rfl rfl).2.2.1⟩

/-- C5: behavior of the bounded registry import around the temporary
document.  On a normal return (exit 0 or nonzero exit) the temporary
`.reg` file is deleted, but when the 60-second ceiling is exceeded
`subprocess.run` raises `TimeoutExpired`, control jumps past the cleanup
to the generic handler, and the temporary file survives — contradicting
the claim that it is deleted after every outcome. -/
theorem C5_timeout_leaves_temp_file :
    ((create_spore_registry "/games/spore" (some "/pt") ImportOutcome.timedOut
        ⟨false, false, 0, none, 0, 0, 0⟩).2.regTmp
      = some (reg_content "/games/spore")) ∧
      ((create_spore_registry "/games/spore" (some "/pt") ImportOutcome.timedOut
          ⟨false, false, 0, none, 0, 0, 0⟩).1 = false) ∧
      ((create_spore_registry "/games/spore" (some "/pt") ImportOutcome.exit0
          ⟨false, false, 0, none, 0, 0, 0⟩).2.regTmp = none) ∧
      ((create_spore_registry "/games/spore" (some "/pt") ImportOutcome.exitNonzero
          ⟨false, false, 0, none, 0, 0, 0⟩).2.regTmp = none) :=
  ⟨rfl, rfl, rfl, rfl⟩

/-- C6 (amended): the environment passed to both guest-process spawn sites
sets `WINEPREFIX` to the sandbox root and sets `LD_LIBRARY_PATH` to the
fixed override — replacing, not appending to, any host-defined value —
while leaving every other variable of the host environment unchanged. -/
theorem C6_guest_process_env (hostEnv : List (String × String)) (pfx : String) :
    lookupD (buildGuestEnv hostEnv pfx) "WINEPREFIX" = some pfx ∧
      lookupD (buildGuestEnv hostEnv pfx) "LD_LIBRARY_PATH" = some libraryPathOverride ∧
      ∀ k : String, k ≠ "WINEPREFIX" → k ≠ "LD_LIBRARY_PATH" →
        lookupD (buildGuestEnv hostEnv pfx) k = lookupD hostEnv k := by
  refine ⟨?_, ?_, ?_⟩
  · unfold buildGuestEnv
    rw [lookupD_dictSet_other _ _ _ _ (by decide)]
    exact lookupD_dictSet_same hostEnv "WINEPREFIX" pfx
  · exact lookupD_dictSet_same _ _ _
  · intro k hk1 hk2
    unfold buildGuestEnv
    rw [lookupD_dictSet_other _ _ _ _ (fun h => hk2 h.symm),
      lookupD_dictSet_other _ _ _ _ (fun h => hk1 h.symm)]

/-- C6 witness: the amended environment theorem evaluated on a concrete
host environment. -/
theorem C6_guest_process_env_witness :
    lookupD (buildGuestEnv [("PATH", "/usr/bin")] "/pfx") "WINEPREFIX" = some "/pfx" ∧
      lookupD (buildGuestEnv [("PATH", "/usr/bin")] "/pfx") "PATH" = some "/usr/bin" :=
  ⟨(C6_guest_process_env [("PATH", "/usr/bin")] "/pfx").1,
    Eq.trans
      ((C6_guest_process_env [("PATH", "/usr/bin")] "/pfx").2.2 "PATH"
        (by decide) (by decide)) rfl⟩

/-- C6 counterexample: with a host environment that already defines the
library search path, both spawn sites hand the guest a `LD_LIBRARY_PATH`
equal to the fixed override in which the host's entry `/custom/lib` does
not occur at all — the override replaces rather than appends. -/
theorem C6_counterexample :
    lookupD (buildGuestEnv [("LD_LIBRARY_PATH", "/custom/lib")] "/pfx")
        "LD_LIBRARY_PATH" = some libraryPathOverride ∧
      countSubstr libraryPathOverride "/custom/lib" = 0 :=
  ⟨rfl, by decide⟩

/-- C7: when the game locator yields no matching record, the pipeline
fails immediately and the state — prefix directory, marker, every
counter — is exactly the initial state: nothing else ran. -/
theorem C7_no_game_is_pure_failure (env : PipeEnv) (s : PipeSt)
    (hg : find_spore_game env.gamesResult = none) :
    install env s = (false, s) := by
  simp [install, hg]

/-- C7 witness: a raising locator produces a failed run with unchanged
state. -/
theorem C7_no_game_is_pure_failure_witness :
    find_spore_game (Except.error ()) = none ∧
      install
          ⟨Except.error (), some "/pt", true, ImportOutcome.exit0,
            some "/dl/setup.exe", true⟩
          ⟨false, false, 0, none, 0, 0, 0⟩
        = (false, ⟨false, false, 0, none, 0, 0, 0⟩) :=
  ⟨rfl,
    C7_no_game_is_pure_failure
      ⟨Except.error (), some "/pt", true, ImportOutcome.exit0,
        some "/dl/setup.exe", true⟩
      ⟨false, false, 0, none, 0, 0, 0⟩ rfl⟩

/-- C4 (amended): the locator probes exactly the three fixed candidates
in source order — the shared-program-data location first, then the
`Program Files (x86)` variant, then the plain `Program Files` variant —
and returns the first candidate whose marker executable exists
(`none` when no candidate contains it). -/
theorem C4_locator_first_match (e : String → Bool) (pfx : String) :
    find_modapi_installation e pfx =
      (modapiCandidates pfx).find?
        (fun d => e (d ++ "/Spore ModAPI Launcher.exe")) := by
  simp only [find_modapi_installation, modapiCandidates, List.find?]
  rcases h1 : e (pfx ++ "/drive_c/ProgramData/SPORE ModAPI Launcher Kit"
      ++ "/Spore ModAPI Launcher.exe") <;>
    rcases h2 : e (pfx ++ "/drive_c/Program Files (x86)/Spore ModAPI Launcher Kit"
      ++ "/Spore ModAPI Launcher.exe") <;>
    rcases h3 : e (pfx ++ "/drive_c/Program Files/Spore ModAPI Launcher Kit"
      ++ "/Spore ModAPI Launcher.exe") <;>
    simp [h1, h2, h3]

/-- C4 counterexample: with the marker present in both program-files
variants (and absent from the shared-program-data location), the code
returns the `Program Files (x86)` candidate — the 32-bit-style variant —
not the plain 64-bit-style `Program Files` candidate the claimed probe
order would select first. -/
theorem C4_counterexample :
    find_modapi_installation
        (fun s =>
          (s == "/p/drive_c/Program Files (x86)/Spore ModAPI Launcher Kit/Spore ModAPI Launcher.exe")
            || (s == "/p/drive_c/Program Files/Spore ModAPI Launcher Kit/Spore ModAPI Launcher.exe"))
        "/p"
      = some "/p/drive_c/Program Files (x86)/Spore ModAPI Launcher Kit" ∧
      ("/p/drive_c/Program Files (x86)/Spore ModAPI Launcher Kit" : String) ≠
        "/p/drive_c/Program Files/Spore ModAPI Launcher Kit" := by
  exact ⟨by decide, by decide⟩

/-- C8 (amended): for a well-formed absolute host path (leading slash, no
backslashes, no doubled slashes) the registry-mode output contains no
single unescaped backslash — every maximal backslash run has even
length — while the display-mode output consists of exactly one doubled
backslash (formed at the junction of the `Z:\` drive prefix with the
converted leading slash) followed by only single backslashes. -/
theorem C8_path_translation (p : String) (habs : p.data.head? = some '/')
    (hbs : '\\' ∉ p.data) (hadj : noAdjSlash p.data = true) :
    (∀ r ∈ bsRuns (convert_to_wine_path_registry p).data, r % 2 = 0) ∧
      ∃ l, bsRuns (convert_to_wine_path_display p).data = 2 :: l ∧ ∀ r ∈ l, r = 1 := by
  constructor
  · intro r hr
    have hdata : (convert_to_wine_path_registry p).data =
        'Z' :: ':' :: '\\' :: '\\' :: expand regRepl p.data := rfl
    simp only [bsRuns, hdata] at hr
    have hstep : runsAux ('Z' :: ':' :: '\\' :: '\\' :: expand regRepl p.data) 0 =
        runsAux (expand regRepl p.data) 2 := rfl
    rw [hstep] at hr
    exact runsAux_reg_even p.data 2 hbs rfl r hr
  · obtain ⟨q, hq⟩ : ∃ q, p.data = '/' :: q := by
      rcases hp : p.data with _ | ⟨c, q⟩
      · rw [hp] at habs
        simp at habs
      · rw [hp] at habs
        simp only [List.head?_cons, Option.some.injEq] at habs
        exact ⟨q, by rw [habs]⟩
    have hbs' : '\\' ∉ q := by
      rw [hq] at hbs
      exact fun h => hbs (List.mem_cons_of_mem _ h)
    have hadj0 : noAdjSlash ('/' :: q) = true := by rw [hq] at hadj; exact hadj
    have hadj' : noAdjSlash q = true := noAdjSlash_tail '/' q hadj0
    have hhead : q.head? ≠ some '/' := noAdjSlash_head q hadj0
    have hdata : (convert_to_wine_path_display p).data =
        'Z' :: ':' :: '\\' :: expand dispRepl p.data := rfl
    simp only [bsRuns, hdata, hq]
    have hstep : runsAux ('Z' :: ':' :: '\\' :: expand dispRepl ('/' :: q)) 0 =
        runsAux (expand dispRepl q) 2 := rfl
    rw [hstep]
    exact runsAux_disp_two q hbs' hadj' hhead

/-- C8 witness: the amended translation theorem evaluated at a concrete
absolute path. -/
theorem C8_path_translation_witness :
    (∀ r ∈ bsRuns (convert_to_wine_path_registry "/home/user/Spore").data, r % 2 = 0) ∧
      ∃ l, bsRuns (convert_to_wine_path_display "/home/user/Spore").data = 2 :: l ∧
        ∀ r ∈ l, r = 1 :=
  C8_path_translation "/home/user/Spore" rfl (by decide) (by decide)

/-- C8 counterexample: for the well-formed absolute path
`/home/user/Spore`, the display-mode output does contain a doubled
backslash (the `Z:\` prefix immediately followed by the backslash that
replaced the leading slash), refuting the claim that display output has
none. -/
theorem C8_counterexample :
    (("/home/user/Spore" : String).data.head? = some '/' ∧
        '\\' ∉ ("/home/user/Spore" : String).data ∧
        noAdjSlash ("/home/user/Spore" : String).data = true) ∧
      countSubstr (convert_to_wine_path_display "/home/user/Spore") "\\\\" ≠ 0 := by
  exact ⟨⟨rfl, by decide, by decide⟩, by decide⟩

/-- C9: the script generator emits one script per fixed guest binary
found under the install root (in source order), skipping absent binaries;
each emitted script is written with mode 0o755 regardless of what was at
that path before; directory entries of skipped scripts are untouched;
success holds iff at least one script was created; and with only the
launcher binary present exactly one script is created and two are
skipped. -/
theorem C9_generate_scripts (e : String → Bool) (pr outD pfxP dir : String)
    (st : List (String × Nat)) :
    ((create_launch_scripts e (some pr) outD pfxP (some dir) st).1 = true ↔
        modapiExecutables.filter (fun x => e (dir ++ "/" ++ x.1)) ≠ []) ∧
      (∀ x ∈ modapiExecutables, e (dir ++ "/" ++ x.1) = true →
        lookupMode (create_launch_scripts e (some pr) outD pfxP (some dir) st).2
          (outD ++ "/" ++ x.2) = some 493) ∧
      (∀ x ∈ modapiExecutables, e (dir ++ "/" ++ x.1) = false →
        lookupMode (create_launch_scripts e (some pr) outD pfxP (some dir) st).2
          (outD ++ "/" ++ x.2) = lookupMode st (outD ++ "/" ++ x.2)) ∧
      (scriptsLoop (fun s => s == "/modapi/Spore ModAPI Launcher.exe")
          "/modapi" "/out" modapiExecutables []).1
        = ["launch_spore_modapi_launcher.sh"] := by
  have hsucc : (create_launch_scripts e (some pr) outD pfxP (some dir) st).1
      = !(scriptsLoop e dir outD modapiExecutables st).1.isEmpty := rfl
  have hst : (create_launch_scripts e (some pr) outD pfxP (some dir) st).2
      = (scriptsLoop e dir outD modapiExecutables st).2 := rfl
  refine ⟨?_, ?_, ?_, by decide⟩
  · rw [hsucc, scriptsLoop_created]
    rcases hl : modapiExecutables.filter (fun x => e (dir ++ "/" ++ x.1)) with _ | ⟨y, l⟩
    · simp [hl]
    · simp [hl]
  · intro x hx hex
    rw [hst]
    exact scriptsLoop_mode e dir outD modapiExecutables st x hx (by decide) hex
  · intro x hx hne
    rw [hst]
    apply scriptsLoop_preserved e dir outD modapiExecutables st
    intro z hz hez heq
    have h2 : z.2 = x.2 := strAppend_cancel_left heq
    have hzx : z = x := by
      fin_cases hz <;> fin_cases hx <;> first | rfl | (exfalso; revert h2; decide)
    rw [hzx, hne] at hez
    exact Bool.false_ne_true hez

/-- C9 witness: the script-generation theorem evaluated with only the
launcher binary present and a pre-existing script file at mode 420
(overwritten to 493 = 0o755). -/
theorem C9_generate_scripts_witness :
    ((create_launch_scripts (fun s => s == "/modapi/Spore ModAPI Launcher.exe")
        (some "/pt") "/out" "/pfx" (some "/modapi")
        [("/out/launch_spore_modapi_launcher.sh", 420)]).1 = true) ∧
      lookupMode
          (create_launch_scripts (fun s => s == "/modapi/Spore ModAPI Launcher.exe")
            (some "/pt") "/out" "/pfx" (some "/modapi")
            [("/out/launch_spore_modapi_launcher.sh", 420)]).2
          "/out/launch_spore_modapi_launcher.sh" = some 493 :=
  ⟨(C9_generate_scripts (fun s => s == "/modapi/Spore ModAPI Launcher.exe")
      "/pt" "/out" "/pfx" "/modapi"
      [("/out/launch_spore_modapi_launcher.sh", 420)]).1.mpr (by decide),
    (C9_generate_scripts (fun s => s == "/modapi/Spore ModAPI Launcher.exe")
      "/pt" "/out" "/pfx" "/modapi"
      [("/out/launch_spore_modapi_launcher.sh", 420)]).2.1
      ("Spore ModAPI Launcher.exe", "launch_spore_modapi_launcher.sh")
      (by decide) (by decide)⟩

/-- C10: the game-locate step matches by case-insensitive substring: a
raising locator yields no record, and on a returned list the result is
`List.find?` of the lowercased-name-contains-"spore" predicate — the
first matching record in enumeration order — whose match is a member of
the list satisfying the predicate. -/
theorem C10_find_spore_game_first_match :
    find_spore_game (Except.error ()) = none ∧
      (∀ gs : List GameRecord, find_spore_game (Except.ok gs) =
        gs.find? (fun g => containsTok (toLowerStr g.name) "spore")) ∧
      (∀ (gs : List GameRecord) (g : GameRecord),
        find_spore_game (Except.ok gs) = some g →
          g ∈ gs ∧ containsTok (toLowerStr g.name) "spore" = true) := by
  refine ⟨rfl, fun gs => findSporeLoop_eq_find? gs, fun gs g h => ?_⟩
  exact findSporeLoop_prop gs g h

/-- C10 witness: the locate theorem evaluated on a concrete list where
only the second record's name contains "spore" (in mixed case). -/
theorem C10_find_spore_game_first_match_witness :
    find_spore_game (Except.ok
        [⟨"LEGO Island", "/l", "steam"⟩,
         ⟨"SPORE Galactic Adventures", "/s", "steam"⟩])
      = some ⟨"SPORE Galactic Adventures", "/s", "steam"⟩ ∧
      ((⟨"SPORE Galactic Adventures", "/s", "steam"⟩ : GameRecord) ∈
          [(⟨"LEGO Island", "/l", "steam"⟩ : GameRecord),
           ⟨"SPORE Galactic Adventures", "/s", "steam"⟩] ∧
        containsTok (toLowerStr "SPORE Galactic Adventures") "spore" = true) := by
  have hfind : find_spore_game (Except.ok
      [(⟨"LEGO Island", "/l", "steam"⟩ : GameRecord),
       ⟨"SPORE Galactic Adventures", "/s", "steam"⟩])
      = some ⟨"SPORE Galactic Adventures", "/s", "steam"⟩ :=
    (C10_find_spore_game_first_match.2.1
      [⟨"LEGO Island", "/l", "steam"⟩,
       ⟨"SPORE Galactic Adventures", "/s", "steam"⟩]).trans (by decide)
  exact ⟨hfind, C10_find_spore_game_first_match.2.2 _ _ hfind⟩

end SporeModLoader
